import Mathlib

/-!
Verification development for the `nutcli` task/shell subsystem.

This file gives a shallow embedding of the core logic of the repository:

* `nutcli/decorators.py` — the `IgnoreErrors`, `SideEffect` and `Timeout`
  decorators, including the `Timeout.__to_seconds` duration parser
  (a faithful model of `re.findall` on the pattern
  `(([\d.]+)\W*(hours?|minutes?|seconds?)?)` followed by the unit
  conversion loop);
* `nutcli/tasks.py` — `Task.execute` (handler resolution, enable flag,
  `ignore_errors`/`timeout` wrapping, the no-handler `ValueError`) and
  `TaskList._run_tasks` (sequential execution with skip-on-error and
  finalize-on-error semantics, log lines, error re-raise), plus the
  recursive `_log_prefix` computation;
* `nutcli/shell.py` — `ShellEnvironment` (`set`/`get`/`clone` over an
  explicit heap of dictionaries, so that Python's aliasing/deep-copy
  distinction is observable), `Shell.__call__` (environment resolution,
  option defaulting, effect selection, translation of subprocess
  outcomes into `ShellResult`/`ShellCommandError`/`ShellTimeoutError`).

Python exceptions are modelled by the `Exc` record; the modelled
exception space is Python's `Exception` hierarchy (the exceptions caught
by `except Exception`).  Handlers are modelled by their observable
outcome (normal return or a raised exception); real-time behaviour
(the actual firing of an installed `SIGALRM` deadline, wall-clock
elapsed time) is outside the model, so the `Timeout` wrapper is
modelled by whether it installs a deadline and the duration it would
use, and `TaskList` duration reporting takes the elapsed seconds as an
explicit parameter.  Python dictionaries are association lists with
in-place value update and append-on-new-key, which preserves Python's
key ordering.  Python `float` literals appearing in the duration parser
are modelled as exact rationals; for every concrete input used in this
file the float and rational computations agree.
-/

namespace Nutcli

/-! ### Python string primitives -/

/-- Characters stripped by Python `str.strip()`. -/
def pyWhitespace (c : Char) : Bool :=
  c = ' ' || c = '\t' || c = '\n' || c = '\r' || c = '\x0b' || c = '\x0c'

/-- Python `str.strip()`. -/
def pyStrip (s : String) : String :=
  ⟨((s.data.dropWhile pyWhitespace).reverse.dropWhile pyWhitespace).reverse⟩

/-- Space or tab, the characters `textwrap.dedent` treats as indentation. -/
def isSpaceTab (c : Char) : Bool := c = ' ' || c = '\t'

/-- Split a character list on a separator character (Python
`str.split(sep)` semantics: `n` separators produce `n + 1` pieces). -/
def splitChar (sep : Char) : List Char → List (List Char)
  | [] => [[]]
  | c :: rest =>
    match splitChar sep rest with
    | [] => [[c]]
    | l :: ls => if c = sep then [] :: l :: ls else (c :: l) :: ls

/-- Join character lists with a separator character. -/
def joinChar (sep : Char) : List (List Char) → List Char
  | [] => []
  | [l] => l
  | l :: ls => l ++ sep :: joinChar sep ls

/-- Longest common prefix of two character lists (the margin-narrowing
step of `textwrap.dedent`). -/
def commonPfx : List Char → List Char → List Char
  | [], _ => []
  | _, [] => []
  | a :: as, b :: bs => if a = b then a :: commonPfx as bs else []

/-- Python `textwrap.dedent`: whitespace-only lines are emptied, the
longest common leading run of spaces/tabs of the remaining non-empty
lines is computed and removed from every line that starts with it. -/
def pyDedent (text : String) : String :=
  let lines := (splitChar '\n' text.data).map
    (fun l => if l ≠ [] ∧ l.all isSpaceTab then [] else l)
  let indents := lines.filterMap
    (fun l => if l.any (fun c => ¬ isSpaceTab c)
              then some (l.takeWhile isSpaceTab) else Option.none)
  let margin := match indents with
    | [] => ([] : List Char)
    | i :: rest => rest.foldl commonPfx i
  if margin = ([] : List Char) then ⟨joinChar '\n' lines⟩
  else ⟨joinChar '\n' (lines.map
    (fun l => if l.take margin.length = margin
              then l.drop margin.length else l))⟩

/-! ### Python dictionaries (insertion-ordered association lists) -/

/-- Python `d[k] = v`: replace the value in place if the key exists, append
otherwise — Python dict assignment, preserving key order. -/
def dictSet : List (String × String) → String → String → List (String × String)
  | [], k, v => [(k, v)]
  | (k', v') :: rest, k, v =>
    if k' = k then (k', v) :: rest else (k', v') :: dictSet rest k v

/-- Python `d.update(kvs)` / `{**d, **kvs}`. -/
def dictUpdate (d : List (String × String)) (kvs : List (String × String)) :
    List (String × String) :=
  kvs.foldl (fun acc kv => dictSet acc kv.1 kv.2) d

/-- Dictionary lookup. -/
def dictGet (d : List (String × String)) (k : String) : Option String :=
  (d.find? (fun kv => kv.1 = k)).map (fun kv => kv.2)

/-! ### `nutcli.decorators.Timeout.__to_seconds` -/

/-- Decidable equality for `Except`, needed to evaluate the models on
concrete inputs. -/
instance {ε α : Type _} [DecidableEq ε] [DecidableEq α] :
    DecidableEq (Except ε α) := fun x y =>
  match x, y with
  | .ok a, .ok b =>
    if h : a = b then isTrue (by rw [h])
    else isFalse (fun hc => h (Except.ok.inj hc))
  | .error a, .error b =>
    if h : a = b then isTrue (by rw [h])
    else isFalse (fun hc => h (Except.error.inj hc))
  | .ok _, .error _ => isFalse (fun hc => Except.noConfusion hc)
  | .error _, .ok _ => isFalse (fun hc => Except.noConfusion hc)

/-- The `timeout` argument of `Timeout`: `None`, a Python `int`, or a
duration string. -/
inductive TimeoutSpec where
  | none : TimeoutSpec
  | int (n : Int) : TimeoutSpec
  | str (s : String) : TimeoutSpec
deriving DecidableEq

/-- Character class `[\d.]` of the duration regex. -/
def isDigitDot (c : Char) : Bool := c.isDigit || c = '.'

/-- Python `\w` (ASCII portion): letters, digits, underscore. -/
def isWordChar (c : Char) : Bool := c.isAlphanum || c = '_'

/-- Digits of a numeral string, most significant first. -/
def natOfDigits (s : String) : Nat :=
  s.data.foldl (fun acc c => acc * 10 + (c.toNat - '0'.toNat)) 0

/-- Python `int(s)` on a token drawn from `[\d.]+`: succeeds only when
the token is all digits. -/
def pyIntParse (s : String) : Option Int :=
  if s.data ≠ [] ∧ s.data.all Char.isDigit then some (natOfDigits s : Int)
  else Option.none

/-- Python `float(s)` on a token drawn from `[\d.]+`: at most one dot
and at least one digit.  The value is represented exactly as a scaled
decimal `mantissa / 10 ^ scale` (see file header). -/
def pyFloatParse (s : String) : Option (Nat × Nat) :=
  if s.data.count '.' ≤ 1 ∧ s.data.any Char.isDigit then
    match splitChar '.' s.data with
    | [a] => some (natOfDigits ⟨a⟩, 0)
    | [a, b] => some (natOfDigits ⟨a ++ b⟩, b.length)
    | _ => Option.none
  else Option.none

/-- Try to strip a literal prefix from a character list. -/
def stripLit (p : List Char) (l : List Char) : Option (List Char) :=
  if l.take p.length = p then some (l.drop p.length) else Option.none

/-- The alternation `(hours?|minutes?|seconds?)?` at the current
position: regex alternation tries the branches left to right, with the
greedy optional `s?` tried long-first. -/
def matchUnit (l : List Char) : Option (String × List Char) :=
  ((stripLit "hours".data l).map (fun r => ("hours", r))) <|>
  ((stripLit "hour".data l).map (fun r => ("hour", r))) <|>
  ((stripLit "minutes".data l).map (fun r => ("minutes", r))) <|>
  ((stripLit "minute".data l).map (fun r => ("minute", r))) <|>
  ((stripLit "seconds".data l).map (fun r => ("seconds", r))) <|>
  ((stripLit "second".data l).map (fun r => ("second", r)))

/-- One scan of `re.findall(r'(([\d.]+)\W*(hours?|minutes?|seconds?)?)', s)`:
at each position, a match requires a maximal nonempty `[\d.]` run,
then skips a maximal run of non-word characters, then optionally a
unit word; scanning resumes after each match.  `fuel` bounds the
recursion; it is always called with the list length, which suffices
because every step consumes at least one character. -/
def scanDurations : Nat → List Char → List (String × String)
  | 0, _ => []
  | _ + 1, [] => []
  | fuel + 1, c :: rest =>
    if isDigitDot c then
      let num : String := ⟨(c :: rest).takeWhile isDigitDot⟩
      let r1 := (c :: rest).dropWhile isDigitDot
      let r2 := r1.dropWhile (fun x => ¬ isWordChar x)
      match matchUnit r2 with
      | some (u, r3) => (num, u) :: scanDurations fuel r3
      | Option.none => (num, "") :: scanDurations fuel r2
    else scanDurations fuel rest

/-- All matches of the duration regex in `s`. -/
def timeoutMatches (s : String) : List (String × String) :=
  scanDurations s.data.length s.data

/-- One iteration of the conversion loop of `Timeout.__to_seconds`:
`int(float(t)*3600)` / `int(float(t)*60)` / `int(t)` depending on the
unit's first letter, with the `ValueError` messages Python would
produce on a malformed numeral. -/
def unitToSeconds (time unit : String) : Except String Int :=
  if unit.data.head? = some 'h' then
    match pyFloatParse time with
    | some (m, sc) => .ok (((m * (60 * 60)) / 10 ^ sc : Nat) : Int)
    | Option.none => .error ("could not convert string to float: '" ++ time ++ "'")
  else if unit.data.head? = some 'm' then
    match pyFloatParse time with
    | some (m, sc) => .ok (((m * 60) / 10 ^ sc : Nat) : Int)
    | Option.none => .error ("could not convert string to float: '" ++ time ++ "'")
  else
    match pyIntParse time with
    | some n => .ok n
    | Option.none => .error ("invalid literal for int() with base 10: '" ++ time ++ "'")

/-- Model of `Timeout.__to_seconds` on a duration string: raises `ValueError`
when no component matches, otherwise sums the converted components. -/
def toSecondsStr (s : String) : Except String Int :=
  match timeoutMatches s with
  | [] => .error ("Unknown timeout format: " ++ s)
  | ms => ms.foldlM (fun acc m => (unitToSeconds m.1 m.2).map (fun n => acc + n)) 0

/-- Model of `Timeout.__to_seconds`. -/
def toSeconds : TimeoutSpec → Except String (Option Int)
  | .none => .ok Option.none
  | .int n => .ok (some n)
  | .str s => (toSecondsStr s).map some

/-- Result of applying the `Timeout` decorator to a callable: either
the callable is returned unchanged (`if not self.seconds: return
function`) or a wrapper installing a `SIGALRM` deadline of the given
number of seconds is returned. -/
inductive TimeoutWrapped (α β : Type) where
  | unchanged (f : α → β) : TimeoutWrapped α β
  | deadline (seconds : Int) (f : α → β) : TimeoutWrapped α β

/-- Model of `Timeout(spec)(f)`: construction parses the duration (possibly
raising `ValueError`), and `__call__` returns `f` unchanged when the
parsed seconds are falsy (`None` or `0`). -/
def timeoutApply {α β : Type} (spec : TimeoutSpec) (f : α → β) :
    Except String (TimeoutWrapped α β) :=
  match toSeconds spec with
  | .error m => .error m
  | .ok Option.none => .ok (.unchanged f)
  | .ok (some n) => if n = 0 then .ok (.unchanged f) else .ok (.deadline n f)

/-! ### `nutcli.decorators.IgnoreErrors`, `LogExecution`, `SideEffect` -/

/-- A raised Python exception: class name and message (`str(e)`).  The
modelled space is the `Exception` hierarchy — exactly what
`except Exception` catches. -/
structure Exc where
  name : String
  msg : String
deriving DecidableEq

/-- Model of `IgnoreErrors(f)`: call `f`; on a raised exception return `None`
(modelled as `Option.none`), on a normal return pass the value
through.  The wrapper itself never raises. -/
def ignoreErrorsWrap {α β : Type} (f : α → Except Exc β) (a : α) :
    Except Exc (Option β) :=
  match f a with
  | .ok b => .ok (some b)
  | .error _ => .ok Option.none

/-- Observable behaviour of one call through a `LogExecution` /
`SideEffect` wrapper: whether the descriptive log line was emitted,
whether the wrapped body was invoked, and the returned value. -/
structure EffectCallRes (β : Type) where
  logged : Bool
  invoked : Bool
  value : β
deriving DecidableEq

/-- Model of the `SideEffect.__call__` wrapper around `f`, with the process-wide
`is_dry_run` and `should_log_execution` flags passed explicitly:
log when either flag is set; when dry run is on, skip the body and
return the configured `returns` value, otherwise run the body. -/
def sideEffectCall {α β : Type} (isDryRun shouldLog : Bool) (returns : β)
    (f : α → β) (a : α) : EffectCallRes β :=
  { logged := isDryRun || shouldLog
    invoked := !isDryRun
    value := if isDryRun then returns else f a }

/-- Model of the `LogExecution.__call__` wrapper: log when the flag is set, always
run the body. -/
def logExecutionCall {α β : Type} (shouldLog : Bool) (f : α → β) (a : α) :
    EffectCallRes β :=
  { logged := shouldLog, invoked := true, value := f a }

/-! ### `nutcli.utils.Colorize` (the fragment `tasks.py` uses) -/

/-- The escape string `colorama.Style.RESET_ALL`. -/
def resetAll : String := "\x1b[0m"

/-- The escape string `colorama.Fore.RED`. -/
def foreRed : String := "\x1b[31m"

/-- Model of `Colorize.all(fmt, colors)` with the process-wide `print_colors`
flag passed explicitly: identity when colors are disabled or the
string is empty. -/
def colorizeAll (printColors : Bool) (fmt : String) (colors : String) : String :=
  if printColors && fmt ≠ "" then resetAll ++ colors ++ fmt ++ resetAll else fmt

/-! ### `nutcli.tasks.Task` -/

/-- A `Task` as configured for execution.  The handler is modelled by
its observable outcome: `Option.none` when no handler was bound, and
otherwise the normal return or the raised exception of the bound
callable with its bound arguments. -/
structure Task where
  name : String := ""
  ignore_errors : Bool := false
  always : Bool := false
  enabled : Bool := true
  timeout : TimeoutSpec := TimeoutSpec.none
  handler : Option (Except Exc Unit) := Option.none
deriving DecidableEq

/-- The `ValueError` raised by `Task.__real_args` / `Task.__real_handler`
when no handler is bound. -/
def noHandlerError : Exc := ⟨"ValueError", "No task handler specified."⟩

/-- Observable result of `Task.execute`: whether the (wrapped) handler
body was invoked, and the call's outcome (normal return or propagated
exception). -/
structure ExecR where
  invoked : Bool
  outcome : Except Exc Unit
deriving DecidableEq

/-- Model of `Task.execute(parent, **overrides)` restricted to the overrides the
repository passes (`ignore_errors`): return immediately when disabled;
fail with `ValueError` when no handler is bound; fail with the
`ValueError` of `Timeout.__init__` when the configured timeout string
is malformed (both before the handler runs); otherwise run the handler
wrapped by `IgnoreErrors` when the effective `ignore_errors` is set.
The installed deadline of a positive timeout is a real-time effect
outside the model, so it does not alter the handler's outcome here. -/
def taskExec (t : Task) (ignoreOverride : Option Bool) : ExecR :=
  if ¬ t.enabled then ⟨false, .ok ()⟩
  else
    match t.handler with
    | Option.none => ⟨false, .error noHandlerError⟩
    | some b =>
      match toSeconds t.timeout with
      | .error m => ⟨false, .error ⟨"ValueError", m⟩⟩
      | .ok _ =>
        let ign := ignoreOverride.getD t.ignore_errors
        ⟨true, if ign then (match b with | .error _ => .ok () | .ok u => .ok u) else b⟩

/-! ### Nesting prefixes (`Task._log_prefix` / `TaskList._log_prefix`) -/

/-- A node in a parent chain: a plain `Task` or a `TaskList` with its
optional tag. -/
inductive NodeKind where
  | task : NodeKind
  | list (tag : Option String) : NodeKind
deriving DecidableEq

/-- Renders `[tag] ` when a tag is set, and nothing otherwise. -/
def tagStr : Option String → String
  | Option.none => ""
  | some s => "[" ++ s ++ "] "

/-- The `_log_prefix` of the head node of a chain (innermost first): a
plain `Task` contributes the parent's prefix plus two spaces (empty at
the root); a `TaskList` appends its rendered tag. -/
def chainPfx : List NodeKind → String
  | [] => ""
  | NodeKind.task :: [] => ""
  | NodeKind.task :: p :: rest => chainPfx (p :: rest) ++ "  "
  | NodeKind.list tag :: [] => tagStr tag
  | NodeKind.list tag :: p :: rest => chainPfx (p :: rest) ++ "  " ++ tagStr tag

/-- Model of `Task._log_message`: every log line of a task is its `_log_prefix`
followed by the message. -/
def taskLogLine (chain : List NodeKind) (msg : String) : String :=
  chainPfx chain ++ msg

/-! ### `nutcli.tasks.TaskList._run_tasks` -/

/-- A `TaskList` as configured for execution (its own handler is fixed
to `_run_tasks`). -/
structure TaskListS where
  tag : Option String := Option.none
  name : String := ""
  ignore_errors : Bool := false
  always : Bool := false
  enabled : Bool := true
  duration : Bool := false
  tasks : List Task := []

/-- Observable events of a `TaskList` run: `info`/`error` log lines
(with the list's full prefix) and handler invocations of the enabled
children (`idx` is the 1-based position among enabled children,
`forcedIgnore` tells whether `_run_tasks` forced `ignore_errors=True`,
`outcome` is the wrapped handler's outcome). -/
inductive Ev where
  | info (line : String) : Ev
  | err (line : String) : Ev
  | invoke (idx : Nat) (name : String) (forcedIgnore : Bool)
      (outcome : Except Exc Unit) : Ev
deriving DecidableEq

/-- The progress string `[idx/total] name`. -/
def taskMsg (idx total : Nat) (name : String) : String :=
  "[" ++ toString idx ++ "/" ++ toString total ++ "] " ++ name

/-- The `'ERROR <class>: <msg>'` line `_run_tasks` logs when a child
raises. -/
def childErrorLine (pc : Bool) (pfx : String) (e : Exc) : String :=
  pfx ++ colorizeAll pc ("ERROR " ++ e.name) foreRed ++ ": " ++ e.msg

/-- The final `'Finished with error <class>: <msg>'` line. -/
def finalErrorLine (pc : Bool) (pfx : String) (e : Exc) : String :=
  pfx ++ "Finished with error " ++ colorizeAll pc e.name foreRed ++ ": " ++ e.msg

/-- Zero-padded two-digit rendering used by `'{:02}'`. -/
def pad2 (n : Nat) : String :=
  if n < 10 then "0" ++ toString n else toString n

/-- The line `Finished in HH:MM:SS` for an elapsed time in seconds. -/
def fmtHMS (secs : Nat) : String :=
  pad2 (secs / 3600) ++ ":" ++ pad2 (secs % 3600 / 60) ++ ":" ++ pad2 (secs % 60)

/-- State of the `_run_tasks` loop after processing a suffix of the
enabled children: accumulated events, the recorded (first) error, and
an exception that escaped the loop itself (a finalizer's `execute`
call is not wrapped in `try`, so an exception it does not swallow —
e.g. the no-handler `ValueError` — aborts the run). -/
structure LoopRes where
  evs : List Ev
  recorded : Option Exc
  abort : Option Exc
deriving DecidableEq

/-- The `for idx, task in enumerate(enabled_tasks, start=1)` loop of
`_run_tasks`.  `pc` is the `Colorize.print_colors` flag, `pfx` the
list's `_log_prefix`, `total` the number of enabled children, `err`
the error recorded so far. -/
def runLoop (pc : Bool) (pfx : String) (total : Nat) :
    List Task → Nat → Option Exc → LoopRes
  | [], _, err => ⟨[], err, Option.none⟩
  | t :: rest, idx, some e =>
    if t.always then
      let ex := taskExec t (some true)
      let head := [Ev.info (pfx ++ taskMsg idx total t.name ++ " (finalizing)")]
        ++ (if ex.invoked then [Ev.invoke idx t.name true ex.outcome] else [])
      match ex.outcome with
      | .error e2 => ⟨head, some e, some e2⟩
      | .ok _ =>
        let r := runLoop pc pfx total rest (idx + 1) (some e)
        ⟨head ++ r.evs, r.recorded, r.abort⟩
    else
      let r := runLoop pc pfx total rest (idx + 1) (some e)
      ⟨Ev.info (pfx ++ taskMsg idx total t.name ++ " (skipped on error)") :: r.evs,
        r.recorded, r.abort⟩
  | t :: rest, idx, Option.none =>
    let ex := taskExec t Option.none
    let head := [Ev.info (pfx ++ taskMsg idx total t.name)]
      ++ (if ex.invoked then [Ev.invoke idx t.name false ex.outcome] else [])
    match ex.outcome with
    | .ok _ =>
      let r := runLoop pc pfx total rest (idx + 1) Option.none
      ⟨head ++ r.evs, r.recorded, r.abort⟩
    | .error e =>
      let r := runLoop pc pfx total rest (idx + 1) (some e)
      ⟨head ++ [Ev.err (childErrorLine pc pfx e)] ++ r.evs, r.recorded, r.abort⟩

/-- Model of `TaskList._run_tasks`: run the enabled children in order, then the
optional duration line, then re-raise the recorded first error (if
any) after logging the final error summary.  `elapsed` is the
wall-clock duration in whole seconds (a real-time input). -/
def runTasks (pc : Bool) (pfx : String) (elapsed : Nat) (tl : TaskListS) :
    List Ev × Except Exc Unit :=
  let enabledTasks := tl.tasks.filter (fun t => t.enabled)
  let lr := runLoop pc pfx enabledTasks.length enabledTasks 1 Option.none
  match lr.abort with
  | some e => (lr.evs, .error e)
  | Option.none =>
    let durEvs := if tl.duration then [Ev.info (pfx ++ "Finished in " ++ fmtHMS elapsed)] else []
    match lr.recorded with
    | Option.none => (lr.evs ++ durEvs, .ok ())
    | some e => (lr.evs ++ durEvs ++ [Ev.err (finalErrorLine pc pfx e)], .error e)

/-- Indexed flat-map over a list with a running 1-based counter; used
to state expected event traces of `_run_tasks`. -/
def idxFlatMap {α : Type} (f : Nat → α → List Ev) : Nat → List α → List Ev
  | _, [] => []
  | i, a :: rest => f i a ++ idxFlatMap f (i + 1) rest

/-- Expected events of one enabled child executed while no error has
been recorded yet and returning normally: the `[i/N] name` line and
one unforced invocation. -/
def normalEvs (pfx : String) (total : Nat) (idx : Nat) (t : Task) : List Ev :=
  [Ev.info (pfx ++ taskMsg idx total t.name), Ev.invoke idx t.name false (.ok ())]

/-- Expected events of one enabled child processed after an error has
been recorded: a non-finalizer produces only the `(skipped on error)`
line — its handler is never invoked — while a finalizer produces the
`(finalizing)` line and exactly one forced-ignore invocation whose
outcome is a normal return (its errors are swallowed). -/
def skipFinalizeEvs (pfx : String) (total : Nat) (idx : Nat) (t : Task) : List Ev :=
  if t.always then
    [Ev.info (pfx ++ taskMsg idx total t.name ++ " (finalizing)"),
     Ev.invoke idx t.name true (.ok ())]
  else
    [Ev.info (pfx ++ taskMsg idx total t.name ++ " (skipped on error)")]

/-! ### `nutcli.shell.ShellEnvironment`

Python objects alias: `ShellEnvironment` holds two dict objects
(`default` and `overrides`), `set` mutates the overrides dict in
place, and `clone` is `copy.deepcopy`.  To make the deep-copy /
aliasing distinction observable, dicts live in an explicit heap and a
`ShellEnvironment` is a pair of heap addresses. -/

/-- A heap of Python dict objects, addressed by allocation order. -/
structure Heap where
  dicts : List (List (String × String))
deriving DecidableEq

/-- Read the dict at an address. -/
def Heap.get (h : Heap) (a : Nat) : List (String × String) :=
  h.dicts.getD a []

/-- Allocate a fresh dict object. -/
def Heap.alloc (h : Heap) (d : List (String × String)) : Heap × Nat :=
  (⟨h.dicts ++ [d]⟩, h.dicts.length)

/-- Overwrite the dict at an address. -/
def Heap.write (h : Heap) (a : Nat) (d : List (String × String)) : Heap :=
  ⟨h.dicts.set a d⟩

/-- A `ShellEnvironment` object: addresses of its `default` and
`overrides` dicts. -/
structure EnvObj where
  defaultAddr : Nat
  overridesAddr : Nat
deriving DecidableEq

/-- The object's addresses are live in the heap. -/
def envValid (h : Heap) (e : EnvObj) : Prop :=
  e.defaultAddr < h.dicts.length ∧ e.overridesAddr < h.dicts.length

/-- Model of `ShellEnvironment.__init__(clear_env)`: snapshot of the process
environment (or empty) plus an empty overrides dict. -/
def envNew (h : Heap) (processEnv : List (String × String)) (clear_env : Bool) :
    Heap × EnvObj :=
  let p1 := h.alloc (if clear_env then [] else processEnv)
  let p2 := p1.1.alloc []
  (p2.1, ⟨p1.2, p2.2⟩)

/-- Model of `ShellEnvironment.set(env)`: `self.overrides.update(env)` when
`env is not None` — an in-place mutation of the overrides dict. -/
def envSet (h : Heap) (e : EnvObj) (env : Option (List (String × String))) : Heap :=
  match env with
  | Option.none => h
  | some kvs => h.write e.overridesAddr (dictUpdate (h.get e.overridesAddr) kvs)

/-- Model of `ShellEnvironment.get()`: `{**self.default, **self.overrides}`. -/
def envGet (h : Heap) (e : EnvObj) : List (String × String) :=
  dictUpdate (h.get e.defaultAddr) (h.get e.overridesAddr)

/-- Model of `ShellEnvironment.get_overrides()`. -/
def envGetOverrides (h : Heap) (e : EnvObj) : List (String × String) :=
  h.get e.overridesAddr

/-- Model of `ShellEnvironment.clone()` = `copy.deepcopy(self)`: fresh copies of
both dicts. -/
def envClone (h : Heap) (e : EnvObj) : Heap × EnvObj :=
  let p1 := h.alloc (h.get e.defaultAddr)
  let p2 := p1.1.alloc (h.get e.overridesAddr)
  (p2.1, ⟨p1.2, p2.2⟩)

/-! ### `nutcli.shell.Shell` -/

/-- The `Shell.Effect` enumeration. -/
inductive Effect where
  | blank : Effect
  | logExecution : Effect
  | sideEffect : Effect
deriving DecidableEq

/-- The `ShellResult` value object. -/
structure ShellResult where
  rc : Int
  stdout : Option String := Option.none
  stderr : Option String := Option.none
deriving DecidableEq

/-- The `subprocess.run` keyword options the core reads, each `none`
when not supplied at that layer (constructor kwargs / call kwargs). -/
structure ShellOpts where
  text : Option Bool := Option.none
  capture_output : Option Bool := Option.none
  check : Option Bool := Option.none
  cwd : Option String := Option.none
  timeout : Option Int := Option.none
deriving DecidableEq

/-- A `Shell` instance: default working directory, interpreter vector,
default effect, constructor kwargs, and its environment object. -/
structure ShellInst where
  cwd : String
  shellVec : List String := ["/bin/bash", "-c"]
  default_effect : Effect := Effect.sideEffect
  opts : ShellOpts := {}
  envObj : EnvObj
deriving DecidableEq

/-- Model of `Shell.__apply_defaults`: hard defaults (`text=True`,
`capture_output=False`, `check=True`, `cwd=self.cwd`), overridden by
constructor kwargs, overridden by call kwargs. -/
structure ResolvedArgs where
  text : Bool
  capture_output : Bool
  check : Bool
  cwd : String
  timeout : Option Int
deriving DecidableEq

/-- Resolve the forwarded options for one call. -/
def applyDefaults (inst : ShellInst) (callOpts : ShellOpts) : ResolvedArgs :=
  { text := callOpts.text.getD (inst.opts.text.getD true)
    capture_output := callOpts.capture_output.getD (inst.opts.capture_output.getD false)
    check := callOpts.check.getD (inst.opts.check.getD true)
    cwd := callOpts.cwd.getD (inst.opts.cwd.getD inst.cwd)
    timeout := callOpts.timeout <|> inst.opts.timeout }

/-- A command argument: a single string or an argument vector. -/
inductive Command where
  | str (s : String) : Command
  | vec (v : List String) : Command
deriving DecidableEq

/-- String commands are dedented and stripped before execution
(`textwrap.dedent(command).strip()`); vectors are passed as given. -/
def processCommand : Command → Command
  | Command.str s => Command.str (pyStrip (pyDedent s))
  | Command.vec v => Command.vec v

/-- The argument vector actually handed to `subprocess.run`. -/
def realCommand (inst : ShellInst) : Command → List String
  | Command.str s => inst.shellVec ++ [s]
  | Command.vec v => v

/-- What the external process layer reports for one spawned command:
normal completion with an exit status (and captured output, when
capture was requested), or `subprocess.TimeoutExpired`. -/
inductive ProcOutcome where
  | completed (rc : Int) (stdout stderr : Option String) : ProcOutcome
  | timedExpired (timeout : Int) (stdout stderr : Option String) : ProcOutcome
deriving DecidableEq

/-- Contextual fields every `ShellError` carries.  `env` is the
`ShellEnvironment` object handed to the error (the per-call clone). -/
structure ShellErrData where
  cmd : Command
  cwd : String
  env : EnvObj
  stdout : Option String
  stderr : Option String
deriving DecidableEq

/-- Either `ShellCommandError` (with its `rc`) or `ShellTimeoutError` (with
its `timeout`). -/
inductive ShellErr where
  | command (rc : Int) (d : ShellErrData) : ShellErr
  | timedOut (timeout : Int) (d : ShellErrData) : ShellErr
deriving DecidableEq

/-- Model of `Shell.__decorator` for `Effect.SideEffect`: the dry-run return
value is the caller-supplied result, or `ShellResult(0)` when none was
given. -/
def shellSideEffectReturns (dry_run_result : Option ShellResult) : ShellResult :=
  match dry_run_result with
  | Option.none => ⟨0, Option.none, Option.none⟩
  | some r => r

/-- Observable result of one `Shell.__call__`: the heap after the
call, whether the subprocess was started, whether the execution
description was logged, the spawned argument vector and environment
(when started), and the returned value or raised error. -/
structure ShellCallRes where
  heap : Heap
  executed : Bool
  logged : Bool
  spawned : Option (List String × List (String × String))
  result : Except ShellErr ShellResult
deriving DecidableEq

/-- Model of `Shell.__call__`, with the process-wide dry-run / log-execution
flags and the process layer's outcome passed explicitly.  Mirrors
`shell.py`: resolve the effect, clone the instance environment and
merge the per-call `env` into the clone, resolve the forwarded
options, preprocess string commands, then either short-circuit (dry
run under `Effect.SideEffect`) or run the command and translate
`CalledProcessError` / `TimeoutExpired` into `ShellCommandError` /
`ShellTimeoutError`. -/
def shellCall (h : Heap) (inst : ShellInst) (command : Command)
    (env : Option (List (String × String))) (effect : Option Effect)
    (dry_run_result : Option ShellResult) (callOpts : ShellOpts)
    (isDryRun shouldLog : Bool) (outcome : ProcOutcome) : ShellCallRes :=
  let eff := effect.getD inst.default_effect
  let p := envClone h inst.envObj
  let realEnv := p.2
  let h2 := envSet p.1 realEnv env
  let ra := applyDefaults inst callOpts
  let cmd := processCommand command
  let logged := match eff with
    | Effect.blank => false
    | Effect.logExecution => shouldLog
    | Effect.sideEffect => isDryRun || shouldLog
  if eff = Effect.sideEffect ∧ isDryRun then
    { heap := h2, executed := false, logged := logged, spawned := Option.none
      result := .ok (shellSideEffectReturns dry_run_result) }
  else
    let spawned := some (realCommand inst cmd, envGet h2 realEnv)
    match outcome with
    | ProcOutcome.completed rc out err =>
      if ra.check ∧ rc ≠ 0 then
        { heap := h2, executed := true, logged := logged, spawned := spawned
          result := .error (ShellErr.command rc ⟨cmd, ra.cwd, realEnv, out, err⟩) }
      else
        { heap := h2, executed := true, logged := logged, spawned := spawned
          result := .ok ⟨rc, out, err⟩ }
    | ProcOutcome.timedExpired tmo out err =>
      { heap := h2, executed := true, logged := logged, spawned := spawned
        result := .error (ShellErr.timedOut (ra.timeout.getD tmo)
          ⟨cmd, ra.cwd, realEnv, out, err⟩) }

/-- Model of `Shell.clone()` = `copy.deepcopy(self)`: value fields are copied
and the environment object is deep-copied. -/
def shellClone (h : Heap) (inst : ShellInst) : Heap × ShellInst :=
  let p := envClone h inst.envObj
  (p.1, { inst with envObj := p.2 })

/-! ### Heap access lemmas -/

theorem Heap.get_alloc_lt {h : Heap} {d : List (String × String)} {a : Nat}
    (ha : a < h.dicts.length) : (h.alloc d).1.get a = h.get a := by
  simp only [Heap.alloc, Heap.get, List.getD_eq_getElem?_getD]
  rw [List.getElem?_append_left ha]

theorem Heap.get_alloc_self (h : Heap) (d : List (String × String)) :
    (h.alloc d).1.get h.dicts.length = d := by
  simp only [Heap.alloc, Heap.get, List.getD_eq_getElem?_getD]
  rw [List.getElem?_concat_length]
  rfl

theorem Heap.length_alloc (h : Heap) (d : List (String × String)) :
    (h.alloc d).1.dicts.length = h.dicts.length + 1 := by
  simp [Heap.alloc]

theorem Heap.get_write_ne {h : Heap} {a b : Nat} (d : List (String × String))
    (hne : a ≠ b) : (h.write b d).get a = h.get a := by
  simp only [Heap.write, Heap.get, List.getD_eq_getElem?_getD]
  rw [List.getElem?_set_ne (fun hc => hne hc.symm)]

theorem Heap.get_write_self {h : Heap} {a : Nat} (d : List (String × String))
    (ha : a < h.dicts.length) : (h.write a d).get a = d := by
  simp only [Heap.write, Heap.get, List.getD_eq_getElem?_getD]
  rw [List.getElem?_set_self ha]
  rfl

/-- Reading a live address is unchanged by `envClone`. -/
theorem Heap.get_envClone_lt {h : Heap} {e : EnvObj} {a : Nat}
    (ha : a < h.dicts.length) : (envClone h e).1.get a = h.get a := by
  have h1 : a < ((h.alloc (h.get e.defaultAddr)).1).dicts.length := by
    rw [Heap.length_alloc]; omega
  simp only [envClone]
  rw [Heap.get_alloc_lt h1, Heap.get_alloc_lt ha]

/-- The two fresh dicts of `envClone` hold copies of the source's
`default` and `overrides` dicts. -/
theorem envClone_reads (h : Heap) (e : EnvObj) :
    (envClone h e).2 = ⟨h.dicts.length, h.dicts.length + 1⟩
    ∧ (envClone h e).1.get h.dicts.length = h.get e.defaultAddr
    ∧ (envClone h e).1.get (h.dicts.length + 1) = h.get e.overridesAddr := by
  refine ⟨?_, ?_, ?_⟩
  · simp [envClone, Heap.alloc]
  · simp only [envClone]
    rw [Heap.get_alloc_lt (by rw [Heap.length_alloc]; omega), Heap.get_alloc_self]
  · simp only [envClone]
    have := Heap.get_alloc_self (h.alloc (h.get e.defaultAddr)).1 (h.get e.overridesAddr)
    rwa [Heap.length_alloc] at this

/-- Reading `envGet` of a live object is unchanged by cloning and then
mutating the clone. -/
theorem envGet_clone_set (h : Heap) (e x : EnvObj) (hv : envValid h x)
    (upd : Option (List (String × String))) :
    envGet (envSet (envClone h e).1 (envClone h e).2 upd) x = envGet h x := by
  obtain ⟨hd, ho⟩ := hv
  have hclone : ∀ a, a < h.dicts.length → (envClone h e).1.get a = h.get a :=
    fun a ha => Heap.get_envClone_lt ha
  cases upd with
  | none =>
    simp only [envSet, envGet]
    rw [hclone _ hd, hclone _ ho]
  | some kvs =>
    simp only [envSet, envGet, (envClone_reads h e).1]
    rw [Heap.get_write_ne _ (by omega), Heap.get_write_ne _ (by omega),
      hclone _ hd, hclone _ ho]

/-- After `self.env.clone().set(env)` inside `Shell.__call__`, the
per-call environment object reads as the instance environment with the
call's overrides merged on top of the stored overrides. -/
theorem envGet_call_env (h : Heap) (e : EnvObj)
    (kvs : List (String × String)) :
    envGet (envSet (envClone h e).1 (envClone h e).2 (some kvs)) (envClone h e).2
      = dictUpdate (h.get e.defaultAddr) (dictUpdate (h.get e.overridesAddr) kvs) := by
  obtain ⟨hc, hrd, hro⟩ := envClone_reads h e
  simp only [envSet, envGet, hc] at hrd hro ⊢
  rw [Heap.get_write_ne _ (by omega), Heap.get_write_self _
      (by simp only [envClone, Heap.length_alloc]; omega),
    hrd, hro]

/-- Same statement for a call that passes `env=None`. -/
theorem envGet_call_env_none (h : Heap) (e : EnvObj) :
    envGet (envSet (envClone h e).1 (envClone h e).2 Option.none) (envClone h e).2
      = dictUpdate (h.get e.defaultAddr) (h.get e.overridesAddr) := by
  obtain ⟨hc, hrd, hro⟩ := envClone_reads h e
  simp only [envSet, envGet, hc] at hrd hro ⊢
  rw [hrd, hro]

/-! ## Claim theorems -/

/-- C5: the `Timeout` duration parser sums optional
hour/minute/second components — the spec's scenario
`"1 second 0.5 minutes"` does yield 31 seconds — but a decimal number
attached to the seconds unit (or to no unit) is passed to Python's
`int()` directly, which rejects it: `Timeout("1.5 seconds")` raises
`ValueError` instead of truncating to 1 second, contradicting the
claim and the code's own docstring (`X`, `Y` and `Z` can be `float`). -/
theorem timeout_duration_decimal_seconds_bug :
    toSeconds (TimeoutSpec.str "1 second 0.5 minutes") = .ok (some 31)
    ∧ toSeconds (TimeoutSpec.str "1.5 seconds")
        = .error "invalid literal for int() with base 10: '1.5'" := by
  decide

/-- C10: a timeout of integer `0`, of `None`, or of any duration
string whose components sum to `0` makes `Timeout.__call__` return the
wrapped callable unchanged (`if not self.seconds: return function`),
installing no deadline — identical to passing no timeout at all. -/
theorem timeout_zero_returns_function_unchanged {α β : Type} (f : α → β) :
    timeoutApply (TimeoutSpec.int 0) f = .ok (TimeoutWrapped.unchanged f)
    ∧ timeoutApply TimeoutSpec.none f = .ok (TimeoutWrapped.unchanged f)
    ∧ ∀ s : String, toSeconds (TimeoutSpec.str s) = .ok (some 0) →
        timeoutApply (TimeoutSpec.str s) f = .ok (TimeoutWrapped.unchanged f) := by
  refine ⟨by simp [timeoutApply, toSeconds], by simp [timeoutApply, toSeconds], ?_⟩
  intro s hs
  simp [timeoutApply, hs]

/-- Witness for C10 at the concrete inputs `0` and `"0 seconds"`. -/
theorem timeout_zero_returns_function_unchanged_witness :
    timeoutApply (TimeoutSpec.int 0) (fun n : Nat => n + 1)
        = .ok (TimeoutWrapped.unchanged (fun n : Nat => n + 1))
    ∧ timeoutApply (TimeoutSpec.str "0 seconds") (fun n : Nat => n + 1)
        = .ok (TimeoutWrapped.unchanged (fun n : Nat => n + 1)) :=
  ⟨(timeout_zero_returns_function_unchanged (fun n : Nat => n + 1)).1,
   (timeout_zero_returns_function_unchanged (fun n : Nat => n + 1)).2.2
     "0 seconds" (by decide)⟩

/-- C6: an `IgnoreErrors`-wrapped call never propagates a raised
failure: a raised exception is swallowed and `None` is returned
instead, a normal return is passed through, and in every case the
wrapper returns normally. -/
theorem ignore_errors_swallows_failures {α β : Type} (f : α → Except Exc β) (a : α) :
    (∀ e : Exc, f a = .error e → ignoreErrorsWrap f a = .ok Option.none)
    ∧ (∀ b : β, f a = .ok b → ignoreErrorsWrap f a = .ok (some b))
    ∧ ∃ r : Option β, ignoreErrorsWrap f a = .ok r := by
  refine ⟨?_, ?_, ?_⟩
  · intro e he; simp [ignoreErrorsWrap, he]
  · intro b hb; simp [ignoreErrorsWrap, hb]
  · cases hfa : f a <;> simp [ignoreErrorsWrap, hfa]

/-- Witness for C6 at a concrete always-raising callable. -/
theorem ignore_errors_swallows_failures_witness :
    ignoreErrorsWrap (fun _ : Unit => (.error ⟨"Exception", "boom"⟩ : Except Exc Nat)) ()
      = .ok Option.none :=
  (ignore_errors_swallows_failures
    (fun _ : Unit => (.error ⟨"Exception", "boom"⟩ : Except Exc Nat)) ()).1
    ⟨"Exception", "boom"⟩ rfl

/-- C3: a `SideEffect`-wrapped call never runs its body under dry run
and returns the configured `returns` value instead; the description is
logged whenever the dry-run or the log-execution flag is enabled; with
dry run disabled the body runs and its result is returned; and
`Shell.__decorator` defaults the dry-run result to `ShellResult(0)`. -/
theorem side_effect_dry_run_short_circuit {α β : Type} (isDryRun shouldLog : Bool)
    (returns : β) (f : α → β) (a : α) :
    (isDryRun = true →
       (sideEffectCall isDryRun shouldLog returns f a).value = returns
       ∧ (sideEffectCall isDryRun shouldLog returns f a).invoked = false)
    ∧ (sideEffectCall isDryRun shouldLog returns f a).logged = (isDryRun || shouldLog)
    ∧ (isDryRun = false →
       (sideEffectCall isDryRun shouldLog returns f a).invoked = true
       ∧ (sideEffectCall isDryRun shouldLog returns f a).value = f a)
    ∧ shellSideEffectReturns Option.none = ⟨0, Option.none, Option.none⟩ := by
  cases isDryRun <;> simp [sideEffectCall, shellSideEffectReturns]

/-- Witness for C3 with dry run enabled at a concrete callable. -/
theorem side_effect_dry_run_short_circuit_witness :
    (sideEffectCall true false (7 : Nat) (fun n : Nat => n + 1) 0).value = 7
    ∧ (sideEffectCall true false (7 : Nat) (fun n : Nat => n + 1) 0).invoked = false :=
  (side_effect_dry_run_short_circuit true false 7 (fun n : Nat => n + 1) 0).1 rfl

/-- C7: executing an enabled `Task` with no handler bound raises the
`ValueError('No task handler specified.')` of `Task.__real_args`
before any handler invocation (`invoked = false`), whatever override
the caller passes. -/
theorem task_no_handler_fails_fast (t : Task) (o : Option Bool)
    (hh : t.handler = Option.none) (he : t.enabled = true) :
    taskExec t o = ⟨false, .error noHandlerError⟩ := by
  simp [taskExec, hh, he]

/-- Witness for C7 at a concrete handlerless enabled task. -/
theorem task_no_handler_fails_fast_witness :
    taskExec { name := "T" } Option.none = ⟨false, .error noHandlerError⟩ :=
  task_no_handler_fails_fast { name := "T" } Option.none rfl rfl

/-- C9: a disabled task's `execute` returns immediately and normally —
no handler invocation, no exception even with no handler bound — and
`_run_tasks` operates on the children filtered to `enabled = true`, so
a `TaskList` runs identically to the same list with its disabled
children removed (in particular the `[i/N]` numbering counts only
enabled children). -/
theorem disabled_tasks_excluded :
    (∀ (t : Task) (o : Option Bool), t.enabled = false → taskExec t o = ⟨false, .ok ()⟩)
    ∧ ∀ (pc : Bool) (pfx : String) (elapsed : Nat) (tl : TaskListS),
        runTasks pc pfx elapsed tl
          = runTasks pc pfx elapsed { tl with tasks := tl.tasks.filter (fun t => t.enabled) } := by
  constructor
  · intro t o h; simp [taskExec, h]
  · intro pc pfx elapsed tl
    simp [runTasks, List.filter_filter]

/-- Witness for C9 at a concrete disabled handlerless task. -/
theorem disabled_tasks_excluded_witness :
    taskExec { name := "T", enabled := false } Option.none = ⟨false, .ok ()⟩ :=
  disabled_tasks_excluded.1 { name := "T", enabled := false } Option.none rfl

/-- C8: the log-line prefix of a nested `TaskList` is its parent's
full prefix, two spaces, then its own tag rendered `[tag] ` (an absent
tag contributes nothing, a root list has no indent); a list tagged
`"A"` inside a list tagged `"B"` therefore prefixes its children's
messages with `[B]   [A] `. -/
theorem nested_log_line_prefixes :
    (∀ (tag : Option String) (p : NodeKind) (rest : List NodeKind),
       chainPfx (NodeKind.list tag :: p :: rest) = chainPfx (p :: rest) ++ "  " ++ tagStr tag)
    ∧ (∀ tag : Option String, chainPfx [NodeKind.list tag] = tagStr tag)
    ∧ (∀ rest : List NodeKind,
       chainPfx (NodeKind.list Option.none :: rest) = chainPfx (NodeKind.task :: rest))
    ∧ (∀ msg : String,
       taskLogLine [NodeKind.list (some "A"), NodeKind.list (some "B")] msg
         = "[B]   [A] " ++ msg) := by
  refine ⟨fun tag p rest => rfl, fun tag => rfl, ?_, fun msg => rfl⟩
  intro rest
  cases rest with
  | nil => rfl
  | cons p r =>
    show chainPfx (p :: r) ++ "  " ++ tagStr Option.none = chainPfx (p :: r) ++ "  "
    simp [tagStr]

/-- C4: mutating a clone of a `ShellEnvironment` or of a `Shell` never
alters the original's effective (`get`) output, and `Shell.__call__`
merges the per-call `env` into a clone, so the instance's stored
environment reads identically before and after any call. -/
theorem clone_mutation_isolated (h : Heap) (e : EnvObj) (inst : ShellInst)
    (hv : envValid h e) (hvi : envValid h inst.envObj) :
    (∀ upd, envGet (envSet (envClone h e).1 (envClone h e).2 (some upd)) e = envGet h e)
    ∧ (∀ upd, envGet (envSet (shellClone h inst).1 (shellClone h inst).2.envObj (some upd))
          inst.envObj = envGet h inst.envObj)
    ∧ (∀ (command : Command) (env : Option (List (String × String)))
         (effect : Option Effect) (drr : Option ShellResult) (callOpts : ShellOpts)
         (isDryRun shouldLog : Bool) (outcome : ProcOutcome),
       envGet (shellCall h inst command env effect drr callOpts isDryRun shouldLog outcome).heap
           inst.envObj
         = envGet h inst.envObj) := by
  refine ⟨fun upd => envGet_clone_set h e e hv (some upd),
    fun upd => envGet_clone_set h inst.envObj inst.envObj hvi (some upd), ?_⟩
  intro command env effect drr callOpts isDryRun shouldLog outcome
  have hbase := envGet_clone_set h inst.envObj inst.envObj hvi env
  have hheap : (shellCall h inst command env effect drr callOpts isDryRun shouldLog outcome).heap
      = envSet (envClone h inst.envObj).1 (envClone h inst.envObj).2 env := by
    cases outcome <;> simp only [shellCall] <;> split <;>
      first
      | rfl
      | (split <;> rfl)
  rw [hheap]
  exact hbase

/-- Witness for C4 at a concrete two-dict heap, with the clone mutated
by `set({'B': '3', 'C': '4'})`. -/
theorem clone_mutation_isolated_witness :
    envGet
      (envSet (envClone ⟨[[("A", "1")], [("B", "2")]]⟩ ⟨0, 1⟩).1
        (envClone ⟨[[("A", "1")], [("B", "2")]]⟩ ⟨0, 1⟩).2
        (some [("B", "3"), ("C", "4")]))
      ⟨0, 1⟩
    = envGet ⟨[[("A", "1")], [("B", "2")]]⟩ ⟨0, 1⟩ :=
  (clone_mutation_isolated ⟨[[("A", "1")], [("B", "2")]]⟩ ⟨0, 1⟩
    { cwd := "/", envObj := ⟨0, 1⟩ } (by constructor <;> decide)
    (by constructor <;> decide)).1 [("B", "3"), ("C", "4")]

/-- C2: a `Shell.__call__` that actually runs its subprocess (no
dry-run short-circuit) with exit-code checking enabled raises, on a
non-zero exit status, a `ShellCommandError` whose `rc` is exactly the
process's exit status and which carries the (preprocessed) command,
the resolved working directory, the per-call resolved environment
object (instance environment plus per-call overrides), and the
captured stdout/stderr; on a zero exit status it returns a
`ShellResult` instead. -/
theorem shell_nonzero_exit_raises_command_error
    (h : Heap) (inst : ShellInst) (command : Command)
    (env : Option (List (String × String))) (effect : Option Effect)
    (drr : Option ShellResult) (callOpts : ShellOpts)
    (isDryRun shouldLog : Bool) (rc : Int) (out err : Option String)
    (hrun : ¬ (effect.getD inst.default_effect = Effect.sideEffect ∧ isDryRun = true))
    (hcheck : (applyDefaults inst callOpts).check = true) :
    (rc ≠ 0 →
       (shellCall h inst command env effect drr callOpts isDryRun shouldLog
           (ProcOutcome.completed rc out err)).result
         = .error (ShellErr.command rc
             ⟨processCommand command, (applyDefaults inst callOpts).cwd,
               (envClone h inst.envObj).2, out, err⟩)
       ∧ envGet (shellCall h inst command env effect drr callOpts isDryRun shouldLog
             (ProcOutcome.completed rc out err)).heap (envClone h inst.envObj).2
           = dictUpdate (h.get inst.envObj.defaultAddr)
               (dictUpdate (h.get inst.envObj.overridesAddr) (env.getD [])))
    ∧ (rc = 0 →
       (shellCall h inst command env effect drr callOpts isDryRun shouldLog
           (ProcOutcome.completed rc out err)).result
         = .ok ⟨rc, out, err⟩) := by
  constructor
  · intro hrc
    constructor
    · simp only [shellCall]
      rw [if_neg hrun, if_pos ⟨hcheck, hrc⟩]
    · simp only [shellCall]
      rw [if_neg hrun, if_pos ⟨hcheck, hrc⟩]
      cases env with
      | none => exact envGet_call_env_none h inst.envObj
      | some kvs => exact envGet_call_env h inst.envObj kvs
  · intro hrc
    simp only [shellCall]
    rw [if_neg hrun, if_neg (by simp [hrc])]

/-- Witness for C2: a `Blank`-effect call of `['false']` exiting with
status 7 under default options. -/
theorem shell_nonzero_exit_raises_command_error_witness :
    (shellCall ⟨[[("PATH", "/usr/bin")], [("A", "1")]]⟩
        { cwd := "/tmp", envObj := ⟨0, 1⟩ } (Command.vec ["false"])
        (some [("B", "2")]) (some Effect.blank) Option.none {} false false
        (ProcOutcome.completed 7 Option.none Option.none)).result
      = .error (ShellErr.command 7
          ⟨Command.vec ["false"], "/tmp", ⟨2, 3⟩, Option.none, Option.none⟩)
    ∧ envGet (shellCall ⟨[[("PATH", "/usr/bin")], [("A", "1")]]⟩
        { cwd := "/tmp", envObj := ⟨0, 1⟩ } (Command.vec ["false"])
        (some [("B", "2")]) (some Effect.blank) Option.none {} false false
        (ProcOutcome.completed 7 Option.none Option.none)).heap ⟨2, 3⟩
      = [("PATH", "/usr/bin"), ("A", "1"), ("B", "2")] := by
  have := (shell_nonzero_exit_raises_command_error
    ⟨[[("PATH", "/usr/bin")], [("A", "1")]]⟩
    { cwd := "/tmp", envObj := ⟨0, 1⟩ } (Command.vec ["false"])
    (some [("B", "2")]) (some Effect.blank) Option.none {} false false
    7 Option.none Option.none (by decide) (by decide)).1 (by decide)
  exact ⟨this.1, this.2⟩

/-! ### `_run_tasks` loop lemmas -/

/-- A finalizer executed with `ignore_errors=True` forced (an enabled
task with a handler and a well-formed timeout) is invoked and returns
normally whatever its handler does — `IgnoreErrors` swallows the
raised exception. -/
theorem taskExec_forced_ignore (t : Task) (he : t.enabled = true)
    (hh : t.handler.isSome = true) (ht : (toSeconds t.timeout).isOk = true) :
    taskExec t (some true) = ⟨true, .ok ()⟩ := by
  obtain ⟨b, hb⟩ := Option.isSome_iff_exists.mp hh
  cases hts : toSeconds t.timeout with
  | error m => rw [hts] at ht; simp [Except.isOk, Except.toBool] at ht
  | ok n =>
    cases b <;> simp [taskExec, he, hb, hts]

/-- Once an error is recorded, the rest of the loop only skips
non-finalizers and finalizes finalizers: the recorded error is
unchanged and nothing aborts the loop. -/
theorem runLoop_after_error (pc : Bool) (pfx : String) (total : Nat) (e : Exc) :
    ∀ (l : List Task) (idx : Nat),
      (∀ t ∈ l, t.enabled = true ∧ t.handler.isSome = true
          ∧ (toSeconds t.timeout).isOk = true) →
      runLoop pc pfx total l idx (some e)
        = ⟨idxFlatMap (skipFinalizeEvs pfx total) idx l, some e, Option.none⟩ := by
  intro l
  induction l with
  | nil => intro idx _; simp [runLoop, idxFlatMap]
  | cons t rest ih =>
    intro idx hl
    have ht := hl t (List.mem_cons_self t rest)
    have hrest := fun x hx => hl x (List.mem_cons_of_mem t hx)
    by_cases ha : t.always
    · have hex := taskExec_forced_ignore t ht.1 ht.2.1 ht.2.2
      simp [runLoop, ha, hex, ih (idx + 1) hrest, idxFlatMap, skipFinalizeEvs]
    · simp [runLoop, ha, ih (idx + 1) hrest, idxFlatMap, skipFinalizeEvs]

/-- While no error has been recorded, a run of children whose executions
return normally contributes its `[i/N]` lines and invocations and the
loop continues behind it with the counter advanced. -/
theorem runLoop_ok_run (pc : Bool) (pfx : String) (total : Nat) :
    ∀ (pre rest : List Task) (idx : Nat),
      (∀ t ∈ pre, taskExec t Option.none = ⟨true, .ok ()⟩) →
      runLoop pc pfx total (pre ++ rest) idx Option.none
        = ⟨idxFlatMap (normalEvs pfx total) idx pre
             ++ (runLoop pc pfx total rest (idx + pre.length) Option.none).evs,
           (runLoop pc pfx total rest (idx + pre.length) Option.none).recorded,
           (runLoop pc pfx total rest (idx + pre.length) Option.none).abort⟩ := by
  intro pre
  induction pre with
  | nil => intro rest idx _; simp [idxFlatMap]
  | cons t ptail ih =>
    intro rest idx hl
    have ht := hl t (List.mem_cons_self t ptail)
    have htail := fun x hx => hl x (List.mem_cons_of_mem t hx)
    have harith : idx + (ptail.length + 1) = (idx + 1) + ptail.length := by omega
    simp [runLoop, ht, ih rest (idx + 1) htail, idxFlatMap, normalEvs,
      List.length_cons, harith]

/-- C1: in a `TaskList` run where the enabled children split as
`pre ++ [tk] ++ post`, the members of `pre` execute normally, and `tk`
(not a finalizer) is the first to raise, every non-finalizer in `post`
is skipped (logged `(skipped on error)`, handler never invoked), every
finalizer in `post` is invoked exactly once with `ignore_errors`
forced (logged `(finalizing)`, its errors swallowed), and after all
children are processed the list logs the error summary and re-raises
the first recorded error `e` to the caller of `execute`. -/
theorem tasklist_skips_then_finalizes_then_reraises
    (pc : Bool) (pfx : String) (elapsed : Nat) (tl : TaskListS)
    (pre post : List Task) (tk : Task) (e : Exc)
    (hsplit : tl.tasks.filter (fun t => t.enabled) = pre ++ tk :: post)
    (hpre : ∀ t ∈ pre, taskExec t Option.none = ⟨true, .ok ()⟩)
    (hk : taskExec tk Option.none = ⟨true, .error e⟩)
    (halways : tk.always = false)
    (hpost : ∀ t ∈ post, t.handler.isSome = true ∧ (toSeconds t.timeout).isOk = true) :
    runTasks pc pfx elapsed tl =
      (idxFlatMap (normalEvs pfx (pre.length + 1 + post.length)) 1 pre
        ++ [Ev.info (pfx ++ taskMsg (pre.length + 1) (pre.length + 1 + post.length) tk.name),
            Ev.invoke (pre.length + 1) tk.name false (.error e),
            Ev.err (childErrorLine pc pfx e)]
        ++ idxFlatMap (skipFinalizeEvs pfx (pre.length + 1 + post.length))
            (pre.length + 2) post
        ++ (if tl.duration then [Ev.info (pfx ++ "Finished in " ++ fmtHMS elapsed)] else [])
        ++ [Ev.err (finalErrorLine pc pfx e)],
       .error e) := by
  have hpostfull : ∀ t ∈ post, t.enabled = true ∧ t.handler.isSome = true
      ∧ (toSeconds t.timeout).isOk = true := by
    intro t htm
    refine ⟨?_, (hpost t htm).1, (hpost t htm).2⟩
    have hmem : t ∈ tl.tasks.filter (fun t => t.enabled) := by
      rw [hsplit]
      exact List.mem_append_right _ (List.mem_cons_of_mem _ htm)
    simpa using List.of_mem_filter hmem
  have hN : (tl.tasks.filter (fun t => t.enabled)).length
      = pre.length + 1 + post.length := by
    rw [hsplit]; simp [List.length_append]; omega
  have hloop := runLoop_ok_run pc pfx (pre.length + 1 + post.length) pre (tk :: post) 1 hpre
  have hafter := runLoop_after_error pc pfx (pre.length + 1 + post.length) e post
    (1 + pre.length + 1) hpostfull
  have hstep : runLoop pc pfx (pre.length + 1 + post.length) (tk :: post)
      (1 + pre.length) Option.none
      = ⟨[Ev.info (pfx ++ taskMsg (1 + pre.length) (pre.length + 1 + post.length) tk.name),
          Ev.invoke (1 + pre.length) tk.name false (.error e),
          Ev.err (childErrorLine pc pfx e)]
          ++ idxFlatMap (skipFinalizeEvs pfx (pre.length + 1 + post.length))
              (1 + pre.length + 1) post,
         some e, Option.none⟩ := by
    simp [runLoop, hk, hafter]
  have htot : pre.length + (post.length + 1) = pre.length + 1 + post.length := by omega
  simp only [runTasks, hsplit, List.length_append, List.length_cons, htot, hloop, hstep]
  have h1 : 1 + pre.length = pre.length + 1 := by omega
  have h2 : 1 + pre.length + 1 = pre.length + 2 := by omega
  simp [h1, h2, List.append_assoc]

/-- Witness for C1: `T1` succeeds, `T2` raises, `T3` is skipped, the
finalizer `T4` (whose own handler raises) still runs with its error
swallowed, and the list re-raises `T2`'s exception. -/
theorem tasklist_skips_then_finalizes_then_reraises_witness :
    runTasks false "" 0
      { tasks :=
          [⟨"T1", false, false, true, TimeoutSpec.none, some (.ok ())⟩,
           ⟨"T2", false, false, true, TimeoutSpec.none, some (.error ⟨"Exception", "Ooops"⟩)⟩,
           ⟨"T3", false, false, true, TimeoutSpec.none, some (.ok ())⟩,
           ⟨"T4", true, true, true, TimeoutSpec.none, some (.error ⟨"OSError", "cleanup failed"⟩)⟩] }
      = ([Ev.info "[1/4] T1", Ev.invoke 1 "T1" false (.ok ()),
          Ev.info "[2/4] T2", Ev.invoke 2 "T2" false (.error ⟨"Exception", "Ooops"⟩),
          Ev.err "ERROR Exception: Ooops",
          Ev.info "[3/4] T3 (skipped on error)",
          Ev.info "[4/4] T4 (finalizing)", Ev.invoke 4 "T4" true (.ok ()),
          Ev.err "Finished with error Exception: Ooops"],
         .error ⟨"Exception", "Ooops"⟩) := by
  exact tasklist_skips_then_finalizes_then_reraises false "" 0 _
    [⟨"T1", false, false, true, TimeoutSpec.none, some (.ok ())⟩]
    [⟨"T3", false, false, true, TimeoutSpec.none, some (.ok ())⟩,
     ⟨"T4", true, true, true, TimeoutSpec.none, some (.error ⟨"OSError", "cleanup failed"⟩)⟩]
    ⟨"T2", false, false, true, TimeoutSpec.none, some (.error ⟨"Exception", "Ooops"⟩)⟩
    ⟨"Exception", "Ooops"⟩
    (by decide) (by decide) (by decide) (by decide) (by decide)

end Nutcli
